import Mathlib

/-!
Shallow embedding of the finverse-invoice-backend delivery pipeline:
the URL-signing token codec (`src/utils/urlSigning.js`), the invoice
delivery worker (`src/workers/invoice-worker.js`), the in-process mock
job queue (`src/queue/mockQueue.js`) and the manual resend route
(`src/routes/invoices.js`).

JavaScript strings are modelled as `List Char` (`JStr`).  JavaScript
`parseInt`, string `split(':')`, template interpolation of `undefined`,
truthiness of strings and the `||` default operator are modelled
explicitly.  Base64 transport encoding (`Buffer.from(s).toString('base64')`
followed by the inverse decode in `verifySignedUrl`) is a bijection on the
wire and is modelled as the identity, so tokens are carried in decoded
form.  The HMAC-SHA256 hex digest is idealised as a deterministic keyed
tag that is injective in its message and whose output never contains the
separator character `:` (the standard symbolic model of a collision-free
MAC).
-/

/-- JavaScript strings, modelled as lists of characters. -/
abbrev JStr := List Char

/-- Coerce a Lean string literal to the `JStr` model. -/
def jstr (s : String) : JStr := s.data

/-- Decimal digit character (`0`..`9`), for `d < 10`. -/
def digitChar (d : Nat) : Char :=
  if d < 10 then Char.ofNat (48 + d) else '9'

/-- Decimal value of a digit character, `none` for non-digits. -/
def charToDigit? (c : Char) : Option Nat :=
  if 48 ≤ c.toNat ∧ c.toNat ≤ 57 then some (c.toNat - 48) else none

/-- Hexadecimal value of a digit character, `none` for others
(JS `parseInt` accepts both cases after a `0x` prefix). -/
def charToHexDigit? (c : Char) : Option Nat :=
  if 48 ≤ c.toNat ∧ c.toNat ≤ 57 then some (c.toNat - 48)
  else if 97 ≤ c.toNat ∧ c.toNat ≤ 102 then some (c.toNat - 87)
  else if 65 ≤ c.toNat ∧ c.toNat ≤ 70 then some (c.toNat - 55)
  else none

/-- Little-endian decimal digits of a natural number, with explicit fuel so
that the function is structurally recursive (kernel-reducible). -/
def natDigitsLEF : Nat → Nat → List Char
  | 0, _ => []
  | fuel + 1, n =>
    if n < 10 then [digitChar n]
    else digitChar (n % 10) :: natDigitsLEF fuel (n / 10)

/-- Decimal rendering of a natural number, as JS renders integral numbers
in template interpolation. -/
def natStr (n : Nat) : JStr := (natDigitsLEF (n + 1) n).reverse

/-- Decimal rendering of an integer (JS template interpolation). -/
def intStr (i : Int) : JStr :=
  if i < 0 then '-' :: natStr i.natAbs else natStr i.toNat

/-- The whitespace characters JS `parseInt` skips at the front. -/
def isJsSpace (c : Char) : Bool :=
  c = ' ' || c = '\t' || c = '\n' || c = '\r'

/-- Accumulate the leading run of decimal digits (stops at the first
non-digit), as JS `parseInt` does after the sign. -/
def parseDigitsAux : List Char → Nat → Nat
  | [], acc => acc
  | c :: cs, acc =>
    match charToDigit? c with
    | some d => parseDigitsAux cs (acc * 10 + d)
    | none => acc

/-- Accumulate the leading run of hexadecimal digits. -/
def parseHexAux : List Char → Nat → Nat
  | [], acc => acc
  | c :: cs, acc =>
    match charToHexDigit? c with
    | some d => parseHexAux cs (acc * 16 + d)
    | none => acc

/-- Leading hexadecimal number (at least one hex digit required). -/
def hexLeading : JStr → Option Nat
  | [] => none
  | c :: cs =>
    if (charToHexDigit? c).isSome then some (parseHexAux (c :: cs) 0) else none

/-- Leading unsigned number as JS `parseInt` reads it: a `0x`/`0X` prefix
switches to hexadecimal, otherwise the leading run of decimal digits; at
least one digit is required (else `NaN`). -/
def jsLeadingNat (l : JStr) : Option Nat :=
  match l with
  | [] => none
  | c :: cs =>
    if c = '0' && (cs.head? = some 'x' || cs.head? = some 'X') then
      hexLeading cs.tail
    else if (charToDigit? c).isSome then
      some (parseDigitsAux (c :: cs) 0)
    else none

/-- JS `parseInt(s)` (radix unspecified): skip leading whitespace, optional
sign, then the leading digit run; `none` models `NaN`. -/
def jsParseIntChars (s : JStr) : Option Int :=
  let t := s.dropWhile isJsSpace
  match t with
  | [] => none
  | c :: cs =>
    if c = '-' then (jsLeadingNat cs).map (fun n => -(n : Int))
    else if c = '+' then (jsLeadingNat cs).map (fun n => (n : Int))
    else (jsLeadingNat (c :: cs)).map (fun n => (n : Int))

/-- JS template interpolation of a possibly-`undefined` string value. -/
def jsToStr (o : Option JStr) : JStr := o.getD (jstr "undefined")

/-- JS `parseInt` applied to a possibly-`undefined` value
(`parseInt(undefined)` is `NaN`). -/
def jsParseIntOpt (o : Option JStr) : Option Int := jsParseIntChars (jsToStr o)

/-- JS strict inequality `a !== b` on numbers where `none` models `NaN`:
`NaN` is strictly unequal to everything, itself included. -/
def jsStrictNe (a b : Option Int) : Bool :=
  match a, b with
  | some x, some y => decide (x ≠ y)
  | _, _ => true

/-- JS `now > e` where `e` may be `NaN`: any comparison with `NaN` is false. -/
def jsGtOpt (now : Int) (e : Option Int) : Bool :=
  match e with
  | some v => decide (now > v)
  | none => false

/-- JS string truthiness of a possibly-`undefined` string:
`undefined` and the empty string are falsy. -/
def jsTruthyStr (o : Option JStr) : Bool :=
  match o with
  | some s => decide (s ≠ [])
  | none => false

/-- JS `o || d` on a number read from sqlite: `null`/`undefined` and `0`
are falsy and fall back to the default. -/
def jsOrInt (o : Option Int) (d : Int) : Int :=
  match o with
  | some v => if v = 0 then d else v
  | none => d

/-- JS `s.split(sep)` for a one-character separator. -/
def splitCharsOn (sep : Char) : List Char → List (List Char)
  | [] => [[]]
  | c :: cs =>
    match splitCharsOn sep cs with
    | [] => [[]]
    | h :: t => if c = sep then [] :: h :: t else (c :: h) :: t

/-- One-character escape encoding used by the idealised MAC below:
`:` and `%` are escaped so that the output is colon-free and the
encoding is injective. -/
def escChar (c : Char) : List Char :=
  if c = ':' then ['%', 'c'] else if c = '%' then ['%', 'p'] else [c]

/-- Escape a whole string (injective, colon-free output). -/
def esc (l : List Char) : List Char := l.flatMap escChar

/-- The `SIGNED_URL_SECRET` fallback from `src/utils/urlSigning.js`. -/
def SECRET : JStr := jstr "default-secret-change-in-production"

/-- Idealised model of `crypto.createHmac('sha256', secret).update(msg)
.digest('hex')`: a deterministic keyed tag, injective in the message for a
fixed secret and never containing `:` (symbolic collision-free MAC; the
concrete 64-hex-character digest is abstracted). -/
def hmacSha256Hex (secret msg : JStr) : JStr := esc (secret ++ ':' :: msg)

/-- Model of `generateSignedUrl(invoiceId, expiryDays)` from `src/utils/urlSigning.js`,
with `Date.now()` passed explicitly as `now` (milliseconds).  The token is
kept in decoded form (base64 transport modelled as the identity). -/
def generateSignedUrl (invoiceId : JStr) (expiryDays : Int) (now : Int) : JStr :=
  let expiry := now + expiryDays * (24 * 60 * 60 * 1000)
  let payload := invoiceId ++ ':' :: intStr expiry
  let signature := hmacSha256Hex SECRET payload
  payload ++ ':' :: signature

/-- Model of `verifySignedUrl(token, invoiceId)` from `src/utils/urlSigning.js`, with
`Date.now()` passed explicitly.  Mirrors the source checks in order: the
destructuring `[id, expiry, signature] = decoded.split(':')` (missing
components are `undefined`), `parseInt(id) !== parseInt(invoiceId)`,
`Date.now() > parseInt(expiry)`, then recomputation of the tag over
`id + ':' + expiry` and strict comparison with the third component. -/
def verifySignedUrl (token : JStr) (invoiceId : JStr) (now : Int) : Bool :=
  let parts := splitCharsOn ':' token
  let id := parts.get? 0
  let expiry := parts.get? 1
  let signature := parts.get? 2
  if jsStrictNe (jsParseIntOpt id) (jsParseIntChars invoiceId) then false
  else if jsGtOpt now (jsParseIntOpt expiry) then false
  else
    let expectedSignature :=
      hmacSha256Hex SECRET (jsToStr id ++ ':' :: jsToStr expiry)
    if signature ≠ some expectedSignature then false else true

/-- The path string the worker passes to `generateSignedUrl` at
`src/workers/invoice-worker.js:70-73`. -/
def invoicePdfPath (invoiceId : Nat) : JStr :=
  jstr "/api/invoices/" ++ natStr invoiceId ++ jstr "/pdf"

/-!
## Delivery worker (`src/workers/invoice-worker.js`)

The `send-invoice` job handler is embedded as a pure function from the job
input, the settings/preferences rows and an environment of call-site
outcomes (PDF generation, PDF storage, email dispatch, SMS dispatch) to a
trace of effects (`Ev`) plus the handler's result.  Database writes and
`job.progress` calls become trace events; `datetime('now')` column values
are not tracked.  A `db.run` write itself is assumed not to throw, and the
settings row is assumed to load; the preferences lookup has its own
try/catch in the source and is modelled by an `Option Prefs` input
(`none` covers both a missing table and a missing row).
-/

/-- The `invoice_settings` row fields read by the worker.
sqlite integers with JS-truthiness use are modelled as `Bool`
(`email_enabled`, `sms_enabled`) or `Option Int` where `||` defaults
apply (`signed_url_expiry_days`). -/
structure Settings where
  email_enabled : Bool
  sms_enabled : Bool
  email_provider : JStr
  sms_provider : JStr
  signed_url_expiry_days : Option Int
  auto_send_on_create : Bool
deriving DecidableEq, Repr

/-- The `customer_preferences` row fields read by the worker. -/
structure Prefs where
  email_unsubscribed : Bool
  sms_opt_in : Bool
  unsubscribe_token : Option JStr
deriving DecidableEq, Repr

/-- The fields of `job.data.invoiceData` the worker branches on. -/
structure InvoiceData where
  invoiceNumber : JStr
  customerName : JStr
  customerEmail : Option JStr
  customerPhone : Option JStr
deriving DecidableEq, Repr

/-- The record returned by `pdfGenerator.savePDF`. -/
structure FileInfo where
  fileName : JStr
  filePath : JStr
  fileSize : Nat
  fileHash : JStr
  storageType : JStr
deriving DecidableEq, Repr

/-- Successful dispatch result from the email/SMS service
(`{messageId, response}` normalised shape). -/
structure SendOk where
  messageId : JStr
  response : JStr
deriving DecidableEq, Repr

/-- The object thrown by `emailService.sendInvoiceEmail` / `init`
(`{error, errorCode}`; fields may be `undefined`). -/
structure EmailErr where
  error : Option JStr
  errorCode : Option JStr
deriving DecidableEq, Repr

/-- The object thrown by `smsService.sendInvoiceSMS` / `init`. -/
structure SmsErr where
  error : Option JStr
deriving DecidableEq, Repr

/-- Delivery channel (`send_type` column). -/
inductive Channel where
  | email
  | sms
deriving DecidableEq, Repr

/-- Observable effects of one worker run, in program order. -/
inductive Ev where
  /-- Event for `job.progress(n)`. -/
  | progress (n : Nat)
  /-- Event for `INSERT INTO invoice_files ...`. -/
  | insertInvoiceFile (invoiceId : Nat) (fileName filePath : JStr)
      (fileSize : Nat) (fileHash storageType signedUrl : JStr)
  /-- Event for `INSERT INTO send_logs ... status = 'sending'`. -/
  | insertSendLog (invoiceId : Nat) (channel : Channel)
      (recipient provider triggeredBy : JStr) (triggerType : Option JStr)
  /-- The `emailService.sendInvoiceEmail` call, with the attachment and
  link arguments it receives. -/
  | emailDispatchCall (pdfBufferPresent : Bool)
      (pdfFileName invoiceUrl : Option JStr)
  /-- The `smsService.sendInvoiceSMS` call. -/
  | smsDispatchCall (invoiceUrl : Option JStr)
  /-- Event for `UPDATE send_logs SET status = 'sent' ... WHERE id = logId`. -/
  | updateSendLogSent (channel : Channel) (logId : Nat) (messageId : JStr)
  /-- Event for `UPDATE send_logs SET status = 'failed' ... WHERE id = logId`. -/
  | updateSendLogFailed (channel : Channel) (logId : Nat)
      (errMsg errCode : Option JStr)
  /-- Event for `UPDATE invoices SET email_sent = 1 ...`. -/
  | setEmailSent (invoiceId : Nat)
  /-- Event for `UPDATE invoices SET sms_sent = 1 ...`. -/
  | setSmsSent (invoiceId : Nat)
  /-- Event for `UPDATE invoices SET send_status = status ...`. -/
  | setSendStatus (invoiceId : Nat) (status : JStr)
deriving DecidableEq, Repr

/-- The error rethrown out of the job handler. -/
inductive WorkerErr where
  | emailError (e : EmailErr)
deriving DecidableEq, Repr

/-- The job handler's return value. -/
inductive Outcome where
  /-- Result `{ skipped: true, reason }`. -/
  | skipped (reason : JStr)
  /-- Result `{ success: true, invoiceId, fileName }`. -/
  | success (invoiceId : Nat) (fileName : Option JStr)
deriving DecidableEq, Repr

/-- Outcomes of the external calls the worker makes, plus the
`lastID` values sqlite reports for the two send-log inserts and the
current time used when minting the signed URL. -/
structure Env where
  /-- whether `pdfGenerator.generateInvoicePDF` resolves (vs. throws). -/
  pdfGenOk : Bool
  /-- outcome of `pdfGenerator.savePDF`. -/
  saveResult : Except Unit FileInfo
  /-- outcome of `emailService.init` + `sendInvoiceEmail`. -/
  emailResult : Except EmailErr SendOk
  /-- outcome of `smsService.init` + `sendInvoiceSMS`. -/
  smsResult : Except SmsErr SendOk
  emailLogId : Nat
  smsLogId : Nat
  now : Int
deriving Repr

/-- Truthiness of `prefs?.email_unsubscribed`. -/
def prefUnsubscribed (prefs : Option Prefs) : Bool :=
  (prefs.map Prefs.email_unsubscribed).getD false

/-- Truthiness of `prefs?.sms_opt_in`. -/
def prefSmsOptIn (prefs : Option Prefs) : Bool :=
  (prefs.map Prefs.sms_opt_in).getD false

/-- Step 1 of the worker (lines 42-99): PDF generation, storage, signed-URL
minting and the `invoice_files` insert, with the surrounding try/catch that
nulls `pdfBuffer`, `fileName` and `invoiceUrl` on any failure.  Returns the
events of the stage (the leading `progress(10)` and trailing `progress(40)`
are appended by the caller) along with `fileName`, `invoiceUrl` and whether
`pdfBuffer` is non-null. -/
def pdfStage (settings : Settings) (env : Env) (invoiceId : Nat)
    (invoiceData : InvoiceData) : List Ev × Option JStr × Option JStr × Bool :=
  if env.pdfGenOk then
    let fileName := jstr "invoice-" ++ invoiceData.invoiceNumber ++ jstr ".pdf"
    match env.saveResult with
    | .ok fi =>
      let signedUrl := generateSignedUrl (invoicePdfPath invoiceId)
        (jsOrInt settings.signed_url_expiry_days 7) env.now
      ([Ev.progress 25,
        Ev.insertInvoiceFile invoiceId fi.fileName fi.filePath fi.fileSize
          fi.fileHash fi.storageType signedUrl],
       some fileName, some signedUrl, true)
    | .error _ => ([Ev.progress 25], none, none, false)
  else ([], none, none, false)

/-- Step 3 of the worker (lines 151-191): the SMS block, guarded by
`settings.sms_enabled && invoiceData.customerPhone && prefs?.sms_opt_in`.
A failure is caught and logged; it never rethrows. -/
def smsStageEvents (settings : Settings) (prefs : Option Prefs) (env : Env)
    (invoiceId : Nat) (invoiceData : InvoiceData) (invoiceUrl : Option JStr)
    (triggeredBy : JStr) (triggerType : Option JStr) : List Ev :=
  if settings.sms_enabled && jsTruthyStr invoiceData.customerPhone
      && prefSmsOptIn prefs then
    let ins := Ev.insertSendLog invoiceId .sms (jsToStr invoiceData.customerPhone)
      settings.sms_provider triggeredBy triggerType
    let call := Ev.smsDispatchCall invoiceUrl
    match env.smsResult with
    | .ok r =>
      [ins, call, Ev.updateSendLogSent .sms env.smsLogId r.messageId,
       Ev.setSmsSent invoiceId]
    | .error e =>
      [ins, call, Ev.updateSendLogFailed .sms env.smsLogId e.error none]
  else []

/-- The body of the job handler inside the outer try (lines 19-200):
consent check, PDF stage, email stage (rethrows on failure), SMS stage,
final `send_status = 'sent'` update and return value. -/
def processSendInvoiceInner (settings : Settings) (prefs : Option Prefs)
    (env : Env) (invoiceId : Nat) (invoiceData : InvoiceData)
    (triggeredBy : JStr) (triggerType : Option JStr) :
    List Ev × Except WorkerErr Outcome :=
  if prefUnsubscribed prefs then ([], .ok (.skipped (jstr "unsubscribed")))
  else
    let (pdfEvs, fileName, invoiceUrl, hasBuffer) :=
      pdfStage settings env invoiceId invoiceData
    let evs1 := Ev.progress 10 :: (pdfEvs ++ [Ev.progress 40])
    let tailEvs := Ev.progress 70 ::
      smsStageEvents settings prefs env invoiceId invoiceData invoiceUrl
        triggeredBy triggerType
      ++ [Ev.progress 100, Ev.setSendStatus invoiceId (jstr "sent")]
    if settings.email_enabled && jsTruthyStr invoiceData.customerEmail then
      let ins := Ev.insertSendLog invoiceId .email
        (jsToStr invoiceData.customerEmail) settings.email_provider
        triggeredBy triggerType
      let call := Ev.emailDispatchCall hasBuffer fileName invoiceUrl
      match env.emailResult with
      | .ok r =>
        (evs1 ++ ins :: call ::
           Ev.updateSendLogSent .email env.emailLogId r.messageId ::
           Ev.setEmailSent invoiceId :: tailEvs,
         .ok (.success invoiceId fileName))
      | .error e =>
        (evs1 ++ [ins, call,
           Ev.updateSendLogFailed .email env.emailLogId e.error e.errorCode],
         .error (.emailError e))
    else
      (evs1 ++ tailEvs, .ok (.success invoiceId fileName))

/-- The full `send-invoice` job handler: the inner body wrapped in the outer
catch (lines 201-210) that sets `send_status = 'failed'` and rethrows. -/
def processSendInvoice (settings : Settings) (prefs : Option Prefs)
    (env : Env) (invoiceId : Nat) (invoiceData : InvoiceData)
    (triggeredBy : JStr) (triggerType : Option JStr) :
    List Ev × Except WorkerErr Outcome :=
  match processSendInvoiceInner settings prefs env invoiceId invoiceData
      triggeredBy triggerType with
  | (evs, .ok o) => (evs, .ok o)
  | (evs, .error e) =>
    (evs ++ [Ev.setSendStatus invoiceId (jstr "failed")], .error e)

/-!
## Mock queue (`src/queue/mockQueue.js`)
-/

/-- The job object handed to a processor (`{id, data, progress}`; the
progress callback only logs and is not modelled). -/
structure MockJob (δ : Type) where
  id : JStr
  data : δ
deriving DecidableEq, Repr

/-- The value `MockQueue.add` resolves with: `{id, data, result}` when a
processor ran, `{id, data}` otherwise (`result := none`). -/
structure AddResult (δ ρ : Type) where
  id : JStr
  data : δ
  result : Option ρ
deriving DecidableEq, Repr

/-- The mock queue's entire state: a name and the optional registered
processor.  There is no job store and no retry bookkeeping. -/
structure MockQueueState (δ ε ρ : Type) where
  name : JStr
  processor : Option (MockJob δ → Except ε ρ)

/-- Model of `MockQueue.add(jobName, data)`: if a processor is registered it runs
synchronously inline (an error rethrows); otherwise the job is accepted
and returned unprocessed.  `nowId` stands for `Date.now().toString()`. -/
def MockQueue.add {δ ε ρ : Type} (q : MockQueueState δ ε ρ) (jobName : JStr)
    (data : δ) (nowId : JStr) : Except ε (AddResult δ ρ) :=
  let _ := jobName
  match q.processor with
  | some p =>
    let job : MockJob δ := ⟨nowId, data⟩
    match p job with
    | .ok r => .ok ⟨job.id, data, some r⟩
    | .error e => .error e
  | none => .ok ⟨nowId, data, none⟩

/-- Model of `MockQueue.process(jobName, concurrency, processorFn)`: registers the
processor (the job name and concurrency are ignored by the mock). -/
def MockQueue.process {δ ε ρ : Type} (q : MockQueueState δ ε ρ)
    (jobName : JStr) (concurrency : Nat)
    (processorFn : MockJob δ → Except ε ρ) : MockQueueState δ ε ρ :=
  let _ := jobName
  let _ := concurrency
  { q with processor := some processorFn }

/-!
## Manual resend route (`POST /api/invoices/:id/send`, `src/routes/invoices.js`)
-/

/-- A `send_logs` row as seen by the idempotency query.  `created_at` is
modelled as seconds so that `datetime('now','-1 hour')` becomes
`now - 3600`. -/
structure SendLogRow where
  id : Nat
  invoice_id : Nat
  send_type : Channel
  status : JStr
  created_at : Int
deriving DecidableEq, Repr

/-- The row filter of the idempotency query:
`invoice_id = ? AND send_type = 'email' AND status IN ('sent','delivered')
AND created_at > datetime('now','-1 hour')`. -/
def recentEmailPred (invoiceId : Nat) (now : Int) (r : SendLogRow) : Bool :=
  r.invoice_id = invoiceId && r.send_type = Channel.email
    && (r.status = jstr "sent" || r.status = jstr "delivered")
    && now - 3600 < r.created_at

/-- Model of `ORDER BY created_at DESC LIMIT 1` over a filtered row list: selects a
row with maximal `created_at`. -/
def pickLatest : List SendLogRow → Option SendLogRow
  | [] => none
  | r :: rest =>
    match pickLatest rest with
    | none => some r
    | some b => if r.created_at ≥ b.created_at then some r else some b

/-- The idempotency query of the resend route (lines 100-107). -/
def recentEmailSend (logs : List SendLogRow) (invoiceId : Nat) (now : Int) :
    Option SendLogRow :=
  pickLatest (logs.filter (recentEmailPred invoiceId now))

/-- The HTTP response of the resend route. -/
inductive SendResponse where
  /-- Response 200 `{success: true, message: 'Invoice was already sent recently',
  sendLog}`. -/
  | alreadySent (sendLog : SendLogRow)
  /-- Response 404 `{error: 'Invoice not found'}`. -/
  | notFound
  /-- Response 200 `{success: true, message: 'Invoice queued for sending', jobId}`. -/
  | queued (jobId : JStr)
deriving DecidableEq, Repr

/-- Handler for `POST /api/invoices/:id/send` (lines 91-141): the idempotency check,
then the invoice lookup, then the enqueue.  The second component reports
whether a job was enqueued (the only way this route can cause a new
send-log row, since rows are inserted only by the worker). -/
def postInvoiceSend (logs : List SendLogRow) (invoice : Option InvoiceData)
    (invoiceId : Nat) (now : Int) (jobId : JStr) : SendResponse × Bool :=
  match recentEmailSend logs invoiceId now with
  | some recentSend => (.alreadySent recentSend, false)
  | none =>
    match invoice with
    | none => (.notFound, false)
    | some _ => (.queued jobId, true)

/-!
## Basic lemmas: digits, rendering, parsing
-/

theorem charToDigit?_digitChar : ∀ d, d < 10 → charToDigit? (digitChar d) = some d := by
  decide

theorem digitChar_ne_colon : ∀ d, d < 10 → digitChar d ≠ ':' := by decide

theorem digitChar_ne_minus : ∀ d, d < 10 → digitChar d ≠ '-' := by decide

theorem digitChar_ne_plus : ∀ d, d < 10 → digitChar d ≠ '+' := by decide

theorem digitChar_ne_x : ∀ d, d < 10 → digitChar d ≠ 'x' ∧ digitChar d ≠ 'X' := by
  decide

theorem isJsSpace_digitChar : ∀ d, d < 10 → isJsSpace (digitChar d) = false := by
  decide

theorem natDigitsLEF_fuel (n : Nat) :
    ∀ fuel, n < fuel → natDigitsLEF fuel n = natDigitsLEF (n + 1) n := by
  induction n using Nat.strong_induction_on with
  | _ n ih =>
    intro fuel hf
    match fuel, hf with
    | f + 1, _ =>
      by_cases h10 : n < 10
      · simp [natDigitsLEF, h10]
      · have hdiv : n / 10 < n := Nat.div_lt_self (by omega) (by omega)
        have h1 := ih (n / 10) hdiv f (by omega)
        have h2 := ih (n / 10) hdiv n (by omega)
        simp [natDigitsLEF, h10, h1, h2]

/-- Working equation for `natStr`. -/
theorem natStr_eq (n : Nat) :
    natStr n = if n < 10 then [digitChar n]
               else natStr (n / 10) ++ [digitChar (n % 10)] := by
  by_cases h10 : n < 10
  · simp [natStr, natDigitsLEF, h10]
  · have hdiv : n / 10 < n := Nat.div_lt_self (by omega) (by omega)
    have h := natDigitsLEF_fuel (n / 10) n hdiv
    simp [natStr, natDigitsLEF, h10, h]

theorem natStr_chars (n : Nat) : ∀ c ∈ natStr n, ∃ d, d < 10 ∧ c = digitChar d := by
  induction n using Nat.strong_induction_on with
  | _ n ih =>
    intro c hc
    rw [natStr_eq] at hc
    by_cases h10 : n < 10
    · simp [h10] at hc
      exact ⟨n, h10, hc⟩
    · simp [h10] at hc
      rcases hc with hc | hc
      · exact ih (n / 10) (Nat.div_lt_self (by omega) (by omega)) c hc
      · exact ⟨n % 10, by omega, hc⟩

theorem natStr_ne_nil (n : Nat) : natStr n ≠ [] := by
  rw [natStr_eq]
  by_cases h10 : n < 10 <;> simp [h10]

theorem natStr_colonFree (n : Nat) : ':' ∉ natStr n := by
  intro h
  obtain ⟨d, hd, hc⟩ := natStr_chars n ':' h
  exact digitChar_ne_colon d hd hc.symm

theorem intStr_colonFree (i : Int) : ':' ∉ intStr i := by
  unfold intStr
  by_cases h : i < 0
  · simp [h]
    exact natStr_colonFree _
  · simp [h]
    exact natStr_colonFree _

theorem parseDigitsAux_append (l₁ l₂ : List Char) :
    ∀ acc, (∀ c ∈ l₁, (charToDigit? c).isSome) →
      parseDigitsAux (l₁ ++ l₂) acc = parseDigitsAux l₂ (parseDigitsAux l₁ acc) := by
  induction l₁ with
  | nil => intro acc _; simp [parseDigitsAux]
  | cons c cs ihl =>
    intro acc h
    have hc : (charToDigit? c).isSome := h c (by simp)
    obtain ⟨d, hd⟩ := Option.isSome_iff_exists.mp hc
    simp only [List.cons_append, parseDigitsAux, hd]
    exact ihl _ (fun x hx => h x (by simp [hx]))

theorem parseDigitsAux_natStr (n : Nat) :
    ∀ acc, parseDigitsAux (natStr n) acc = acc * 10 ^ (natStr n).length + n := by
  induction n using Nat.strong_induction_on with
  | _ n ih =>
    intro acc
    by_cases h10 : n < 10
    · rw [natStr_eq]
      simp [h10, parseDigitsAux, charToDigit?_digitChar n h10]
    · have hdiv : n / 10 < n := Nat.div_lt_self (by omega) (by omega)
      have hdigits : ∀ c ∈ natStr (n / 10), (charToDigit? c).isSome := by
        intro c hc
        obtain ⟨d, hd, hceq⟩ := natStr_chars (n / 10) c hc
        rw [hceq, charToDigit?_digitChar d hd]
        rfl
      conv_lhs => rw [natStr_eq]
      simp only [h10, if_false]
      rw [parseDigitsAux_append _ _ acc hdigits, ih (n / 10) hdiv acc]
      have hlen : (natStr n).length = (natStr (n / 10)).length + 1 := by
        conv_lhs => rw [natStr_eq]
        simp [h10]
      simp [parseDigitsAux, charToDigit?_digitChar (n % 10) (by omega), hlen,
        pow_succ]
      ring_nf
      omega

theorem jsLeadingNat_natStr (n : Nat) : jsLeadingNat (natStr n) = some n := by
  obtain ⟨c, cs, hcc⟩ : ∃ c cs, natStr n = c :: cs := by
    cases h : natStr n with
    | nil => exact absurd h (natStr_ne_nil n)
    | cons c cs => exact ⟨c, cs, rfl⟩
  obtain ⟨d, hd, hcd⟩ := natStr_chars n c (by rw [hcc]; simp)
  have hnotx : ¬(c = '0' && (cs.head? = some 'x' || cs.head? = some 'X')) = true := by
    intro h
    simp only [Bool.and_eq_true, Bool.or_eq_true] at h
    obtain ⟨-, h2⟩ := h
    cases hcs : cs.head? with
    | none => rw [hcs] at h2; simp at h2
    | some c2 =>
      have hc2 : c2 ∈ natStr n := by
        rw [hcc]
        cases cs with
        | nil => simp at hcs
        | cons x xs => simp at hcs; simp [hcs]
      obtain ⟨d2, hd2, hcd2⟩ := natStr_chars n c2 hc2
      rw [hcs] at h2
      rcases h2 with h2 | h2 <;> rw [hcd2] at h2 <;>
        simp at h2 <;>
        first
          | exact (digitChar_ne_x d2 hd2).1 h2
          | exact (digitChar_ne_x d2 hd2).2 h2
  have hdig : (charToDigit? c).isSome := by
    rw [hcd, charToDigit?_digitChar d hd]; rfl
  rw [hcc]
  simp only [jsLeadingNat]
  rw [if_neg hnotx, if_pos hdig, ← hcc, parseDigitsAux_natStr]
  simp

/-- Reduction of `jsParseIntChars` on a string whose first character is not
whitespace. -/
theorem jsParseIntChars_cons (c : Char) (cs : List Char)
    (h : isJsSpace c = false) :
    jsParseIntChars (c :: cs) =
      if c = '-' then (jsLeadingNat cs).map (fun n => -(n : Int))
      else if c = '+' then (jsLeadingNat cs).map (fun n => (n : Int))
      else (jsLeadingNat (c :: cs)).map (fun n => (n : Int)) := by
  unfold jsParseIntChars
  simp only [List.dropWhile_cons, h]
  simp

theorem jsParseIntChars_natStr (n : Nat) :
    jsParseIntChars (natStr n) = some (n : Int) := by
  obtain ⟨c, cs, hcc⟩ : ∃ c cs, natStr n = c :: cs := by
    cases h : natStr n with
    | nil => exact absurd h (natStr_ne_nil n)
    | cons c cs => exact ⟨c, cs, rfl⟩
  obtain ⟨d, hd, hcd⟩ := natStr_chars n c (by rw [hcc]; simp)
  rw [hcc, jsParseIntChars_cons c cs (by rw [hcd]; exact isJsSpace_digitChar d hd)]
  rw [if_neg (by rw [hcd]; exact digitChar_ne_minus d hd),
    if_neg (by rw [hcd]; exact digitChar_ne_plus d hd)]
  rw [← hcc, jsLeadingNat_natStr]
  rfl

theorem jsParseIntChars_intStr (i : Int) :
    jsParseIntChars (intStr i) = some i := by
  by_cases hneg : i < 0
  · unfold intStr
    rw [if_pos hneg]
    rw [jsParseIntChars_cons '-' _ (by decide)]
    rw [if_pos rfl, jsLeadingNat_natStr]
    show some (-(i.natAbs : Int)) = some i
    congr 1
    omega
  · unfold intStr
    rw [if_neg hneg]
    rw [jsParseIntChars_natStr]
    congr 1
    omega

/-!
## Split and MAC lemmas
-/

theorem splitCharsOn_ne_nil (sep : Char) (l : List Char) :
    splitCharsOn sep l ≠ [] := by
  cases l with
  | nil => simp [splitCharsOn]
  | cons c cs =>
    unfold splitCharsOn
    cases h : splitCharsOn sep cs with
    | nil => simp
    | cons a b => by_cases hc : c = sep <;> simp [hc]

theorem splitCharsOn_append (sep : Char) (a b : List Char) (ha : sep ∉ a) :
    splitCharsOn sep (a ++ sep :: b) = a :: splitCharsOn sep b := by
  induction a with
  | nil =>
    obtain ⟨h, t, heq⟩ : ∃ h t, splitCharsOn sep b = h :: t := by
      cases he : splitCharsOn sep b with
      | nil => exact absurd he (splitCharsOn_ne_nil sep b)
      | cons h t => exact ⟨h, t, rfl⟩
    simp [splitCharsOn, heq]
  | cons c cs ih =>
    have hc : c ≠ sep := fun h => ha (by simp [h])
    have ih2 := ih (fun h => ha (by simp [h]))
    obtain ⟨h, t, heq⟩ : ∃ h t, splitCharsOn sep (cs ++ sep :: b) = h :: t := by
      cases he : splitCharsOn sep (cs ++ sep :: b) with
      | nil => exact absurd he (splitCharsOn_ne_nil sep _)
      | cons h t => exact ⟨h, t, rfl⟩
    rw [heq] at ih2
    rw [List.cons.injEq] at ih2
    simp only [List.cons_append, splitCharsOn, List.append_eq]
    rw [heq]
    simp [hc, ih2.1, ih2.2]

theorem splitCharsOn_of_notMem (sep : Char) (l : List Char) (h : sep ∉ l) :
    splitCharsOn sep l = [l] := by
  induction l with
  | nil => simp [splitCharsOn]
  | cons c cs ih =>
    have hc : c ≠ sep := fun he => h (by simp [he])
    have ih2 := ih (fun he => h (by simp [he]))
    simp [splitCharsOn, ih2, hc]

/-- Splitting a well-formed three-component token. -/
theorem splitCharsOn_token (P E S : JStr) (hP : ':' ∉ P) (hE : ':' ∉ E)
    (hS : ':' ∉ S) :
    splitCharsOn ':' (P ++ ':' :: (E ++ ':' :: S)) = [P, E, S] := by
  rw [splitCharsOn_append ':' P _ hP, splitCharsOn_append ':' E _ hE,
    splitCharsOn_of_notMem ':' S hS]

theorem escChar_ne_nil (c : Char) : escChar c ≠ [] := by
  unfold escChar
  by_cases h1 : c = ':' <;> by_cases h2 : c = '%' <;> simp [h1, h2]

theorem colon_not_mem_escChar (c : Char) : ':' ∉ escChar c := by
  unfold escChar
  by_cases h1 : c = ':'
  · simp [h1]
  · by_cases h2 : c = '%'
    · simp [h1, h2]
    · simp [h1, h2]
      exact fun he => h1 he.symm

theorem esc_colonFree (l : List Char) : ':' ∉ esc l := by
  intro h
  unfold esc at h
  rw [List.mem_flatMap] at h
  obtain ⟨c, -, hc⟩ := h
  exact colon_not_mem_escChar c hc

/-- Cancellation for the escape encoding: the first escaped character and
the remainder are both determined. -/
theorem escChar_cancel {a b : Char} {X Y : List Char}
    (h : escChar a ++ X = escChar b ++ Y) : a = b ∧ X = Y := by
  have e1 : escChar ':' = ['%', 'c'] := by decide
  have e2 : escChar '%' = ['%', 'p'] := by decide
  have e3 : ∀ c : Char, c ≠ ':' → c ≠ '%' → escChar c = [c] := by
    intro c h1 h2; simp [escChar, h1, h2]
  by_cases ha1 : a = ':'
  · subst ha1
    by_cases hb1 : b = ':'
    · subst hb1
      rw [e1] at h
      simp only [List.cons_append, List.nil_append] at h
      injection h with h1 h2
      injection h2 with h3 h4
      exact ⟨rfl, h4⟩
    · by_cases hb2 : b = '%'
      · subst hb2
        rw [e1, e2] at h
        simp only [List.cons_append, List.nil_append] at h
        injection h with h1 h2
        injection h2 with h3 h4
        exact absurd h3 (by decide)
      · rw [e1, e3 b hb1 hb2] at h
        simp only [List.cons_append, List.nil_append] at h
        injection h with h1 h2
        exact absurd h1.symm hb2
  · by_cases ha2 : a = '%'
    · subst ha2
      by_cases hb1 : b = ':'
      · subst hb1
        rw [e1, e2] at h
        simp only [List.cons_append, List.nil_append] at h
        injection h with h1 h2
        injection h2 with h3 h4
        exact absurd h3 (by decide)
      · by_cases hb2 : b = '%'
        · subst hb2
          rw [e2] at h
          simp only [List.cons_append, List.nil_append] at h
          injection h with h1 h2
          injection h2 with h3 h4
          exact ⟨rfl, h4⟩
        · rw [e2, e3 b hb1 hb2] at h
          simp only [List.cons_append, List.nil_append] at h
          injection h with h1 h2
          exact absurd h1.symm hb2
    · by_cases hb1 : b = ':'
      · subst hb1
        rw [e1, e3 a ha1 ha2] at h
        simp only [List.cons_append, List.nil_append] at h
        injection h with h1 h2
        exact absurd h1 ha2
      · by_cases hb2 : b = '%'
        · subst hb2
          rw [e2, e3 a ha1 ha2] at h
          simp only [List.cons_append, List.nil_append] at h
          injection h with h1 h2
          exact absurd h1 ha2
        · rw [e3 a ha1 ha2, e3 b hb1 hb2] at h
          simp only [List.cons_append, List.nil_append] at h
          injection h with h1 h2
          exact ⟨h1, h2⟩

theorem esc_injective : ∀ l₁ l₂ : List Char, esc l₁ = esc l₂ → l₁ = l₂ := by
  intro l₁
  induction l₁ with
  | nil =>
    intro l₂ h
    cases l₂ with
    | nil => rfl
    | cons b t =>
      exfalso
      simp only [esc, List.flatMap_nil, List.flatMap_cons] at h
      have := escChar_ne_nil b
      cases he : escChar b with
      | nil => exact this he
      | cons x xs => rw [he] at h; simp at h
  | cons a s ih =>
    intro l₂ h
    cases l₂ with
    | nil =>
      exfalso
      simp only [esc, List.flatMap_nil, List.flatMap_cons] at h
      have := escChar_ne_nil a
      cases he : escChar a with
      | nil => exact this he
      | cons x xs => rw [he] at h; simp at h
    | cons b t =>
      simp only [esc, List.flatMap_cons] at h
      obtain ⟨hab, hst⟩ := escChar_cancel h
      exact hab ▸ congrArg (a :: ·) (ih t hst)

theorem hmacSha256Hex_colonFree (secret msg : JStr) :
    ':' ∉ hmacSha256Hex secret msg := esc_colonFree _

theorem hmacSha256Hex_inj {m₁ m₂ : JStr}
    (h : hmacSha256Hex SECRET m₁ = hmacSha256Hex SECRET m₂) : m₁ = m₂ := by
  have h2 := esc_injective _ _ h
  have h3 := List.append_cancel_left h2
  exact (List.cons.injEq _ _ _ _).mp h3 |>.2

/-!
## Reduction of `verifySignedUrl` on well-formed tokens
-/

/-- What `verifySignedUrl` computes on a token made of three colon-free
components `P:E:S`. -/
theorem verifySignedUrl_parts (P E S param : JStr) (now : Int)
    (hP : ':' ∉ P) (hE : ':' ∉ E) (hS : ':' ∉ S) :
    verifySignedUrl (P ++ ':' :: (E ++ ':' :: S)) param now =
      if jsStrictNe (jsParseIntChars P) (jsParseIntChars param) then false
      else if jsGtOpt now (jsParseIntChars E) then false
      else if S ≠ hmacSha256Hex SECRET (P ++ ':' :: E) then false
      else true := by
  unfold verifySignedUrl
  rw [splitCharsOn_token P E S hP hE hS]
  simp only [List.get?_cons_zero, List.get?_cons_succ, jsParseIntOpt,
    jsToStr, Option.getD_some, ne_eq, Option.some.injEq]

/-- The function `generateSignedUrl` produces exactly such a three-component token. -/
theorem generateSignedUrl_eq (invoiceId : JStr) (expiryDays now : Int) :
    generateSignedUrl invoiceId expiryDays now =
      invoiceId ++ ':' ::
        (intStr (now + expiryDays * (24 * 60 * 60 * 1000)) ++ ':' ::
          hmacSha256Hex SECRET
            (invoiceId ++ ':' :: intStr (now + expiryDays * (24 * 60 * 60 * 1000)))) := by
  unfold generateSignedUrl
  simp [List.append_assoc]

theorem jsStrictNe_none_left (b : Option Int) : jsStrictNe none b = true := by
  cases b <;> rfl

theorem jsStrictNe_self (x : Int) : jsStrictNe (some x) (some x) = false := by
  simp [jsStrictNe]

theorem jsStrictNe_symm (a b : Option Int) : jsStrictNe a b = jsStrictNe b a := by
  cases a <;> cases b <;> simp [jsStrictNe, ne_comm]

theorem jsLeadingNat_not_digit (c : Char) (cs : List Char)
    (h0 : c ≠ '0') (hd : charToDigit? c = none) :
    jsLeadingNat (c :: cs) = none := by
  simp [jsLeadingNat, h0, hd]

theorem invoicePdfPath_colonFree (id : Nat) : ':' ∉ invoicePdfPath id := by
  unfold invoicePdfPath
  intro h
  rw [List.mem_append, List.mem_append] at h
  rcases h with (h | h) | h
  · revert h; decide
  · exact natStr_colonFree id h
  · revert h; decide

theorem jsParseIntChars_invoicePdfPath (id : Nat) :
    jsParseIntChars (invoicePdfPath id) = none := by
  have hpath : invoicePdfPath id =
      '/' :: ((jstr "api/invoices/" ++ natStr id) ++ jstr "/pdf") := rfl
  rw [hpath, jsParseIntChars_cons _ _ (by decide),
    if_neg (by decide), if_neg (by decide),
    jsLeadingNat_not_digit _ _ (by decide) (by decide)]
  rfl

/-- Splitting a payload at its first colon is unambiguous when the first
component is colon-free. -/
theorem payload_inj {P E P2 E2 : JStr} (hP : ':' ∉ P) (hP2 : ':' ∉ P2)
    (h : P ++ ':' :: E = P2 ++ ':' :: E2) : P = P2 ∧ E = E2 := by
  have hs : splitCharsOn ':' (P ++ ':' :: E) = splitCharsOn ':' (P2 ++ ':' :: E2) := by
    rw [h]
  rw [splitCharsOn_append ':' P E hP, splitCharsOn_append ':' P2 E2 hP2] at hs
  have hPP : P = P2 := (List.cons.injEq _ _ _ _).mp hs |>.1
  subst hPP
  have := List.append_cancel_left h
  exact ⟨rfl, (List.cons.injEq _ _ _ _).mp this |>.2⟩

/-- C1: the worker mints its customer-facing token over the path string
`/api/invoices/<id>/pdf` while the PDF route verifies the token against the
numeric invoice id; `parseInt` of the path is `NaN`, which is strictly
unequal to `parseInt` of the id, so `verifySignedUrl` rejects every
worker-minted token, for every expiry and at every verification time. -/
theorem worker_minted_token_never_verifies (id : Nat) (d t0 t : Int) :
    jsStrictNe (jsParseIntChars (invoicePdfPath id))
        (jsParseIntChars (natStr id)) = true
    ∧ verifySignedUrl (generateSignedUrl (invoicePdfPath id) d t0)
        (natStr id) t = false := by
  constructor
  · rw [jsParseIntChars_invoicePdfPath]
    exact jsStrictNe_none_left _
  · rw [generateSignedUrl_eq,
      verifySignedUrl_parts _ _ _ _ _ (invoicePdfPath_colonFree id)
        (intStr_colonFree _) (hmacSha256Hex_colonFree _ _),
      jsParseIntChars_invoicePdfPath]
    rw [if_pos (jsStrictNe_none_left _)]

/-- C2 counterexample: the claim "verify returns false for any token whose
decoded payload or signature differs from the minted one" is false as
stated: for id 5 and expiry 7 days, a token minted over the same id with a
14-day expiry has a different decoded payload (its expiry component
differs) yet still verifies. -/
theorem token_differing_payload_still_verifies :
    (splitCharsOn ':' (generateSignedUrl (jstr "5") 14 0)).get? 1 ≠
      (splitCharsOn ':' (generateSignedUrl (jstr "5") 7 0)).get? 1
    ∧ verifySignedUrl (generateSignedUrl (jstr "5") 14 0) (jstr "5") 100 = true := by
  decide

/-- C2 (amended): for every numeric resource id and expiry duration,
`verify(mint(id,d), id)` is true at any time strictly before the expiry;
it is false at any time after the expiry; it is false for every id
string whose `parseInt` is strictly unequal to the id; and it is false
for any token obtained from the minted one by altering the signature
component (keeping the payload) or by altering the payload components
(keeping the minted signature).  (Not every token differing from the
minted one fails: a token independently minted with a different expiry
for the same id still verifies — see the counterexample.) -/
theorem token_roundtrip (id : Nat) (d t0 t : Int) (hd : 0 < d)
    (ht : t < t0 + d * (24 * 60 * 60 * 1000)) :
    (verifySignedUrl (generateSignedUrl (natStr id) d t0) (natStr id) t = true)
    ∧ (∀ t2, t0 + d * (24 * 60 * 60 * 1000) < t2 →
        verifySignedUrl (generateSignedUrl (natStr id) d t0) (natStr id) t2 = false)
    ∧ (∀ idp : JStr, jsStrictNe (jsParseIntChars idp) (some (id : Int)) = true →
        ∀ t3 : Int,
          verifySignedUrl (generateSignedUrl (natStr id) d t0) idp t3 = false)
    ∧ (∀ sig : JStr, ':' ∉ sig →
        sig ≠ hmacSha256Hex SECRET
          (natStr id ++ ':' :: intStr (t0 + d * (24 * 60 * 60 * 1000))) →
        ∀ t4 : Int,
          verifySignedUrl
            (natStr id ++ ':' ::
              (intStr (t0 + d * (24 * 60 * 60 * 1000)) ++ ':' :: sig))
            (natStr id) t4 = false)
    ∧ (∀ P E : JStr, ':' ∉ P → ':' ∉ E →
        (P, E) ≠ (natStr id, intStr (t0 + d * (24 * 60 * 60 * 1000))) →
        ∀ t5 : Int,
          verifySignedUrl
            (P ++ ':' ::
              (E ++ ':' :: hmacSha256Hex SECRET
                (natStr id ++ ':' :: intStr (t0 + d * (24 * 60 * 60 * 1000)))))
            (natStr id) t5 = false) := by
  have hexp : (0 : Int) < d * (24 * 60 * 60 * 1000) := by positivity
  clear hexp
  refine ⟨?_, ?_, ?_, ?_, ?_⟩
  · rw [generateSignedUrl_eq,
      verifySignedUrl_parts _ _ _ _ _ (natStr_colonFree id)
        (intStr_colonFree _) (hmacSha256Hex_colonFree _ _),
      jsParseIntChars_natStr, jsStrictNe_self,
      jsParseIntChars_intStr]
    simp only [Bool.false_eq_true, if_false, jsGtOpt]
    rw [if_neg (by simp; omega), if_neg (by simp)]
  · intro t2 ht2
    rw [generateSignedUrl_eq,
      verifySignedUrl_parts _ _ _ _ _ (natStr_colonFree id)
        (intStr_colonFree _) (hmacSha256Hex_colonFree _ _),
      jsParseIntChars_natStr, jsStrictNe_self,
      jsParseIntChars_intStr]
    simp only [Bool.false_eq_true, if_false, jsGtOpt]
    rw [if_pos (by simp; omega)]
  · intro idp hne t3
    rw [generateSignedUrl_eq,
      verifySignedUrl_parts _ _ _ _ _ (natStr_colonFree id)
        (intStr_colonFree _) (hmacSha256Hex_colonFree _ _),
      jsParseIntChars_natStr]
    rw [if_pos (by rw [jsStrictNe_symm]; exact hne)]
  · intro sig hsigfree hsigne t4
    rw [verifySignedUrl_parts _ _ _ _ _ (natStr_colonFree id)
        (intStr_colonFree _) hsigfree,
      jsParseIntChars_natStr, jsStrictNe_self]
    simp only [Bool.false_eq_true, if_false]
    by_cases hgt : jsGtOpt t4 (jsParseIntChars
        (intStr (t0 + d * (24 * 60 * 60 * 1000)))) = true
    · rw [if_pos hgt]
    · rw [if_neg hgt, if_pos hsigne]
  · intro P E hPfree hEfree hPE t5
    have hmne : hmacSha256Hex SECRET
        (natStr id ++ ':' :: intStr (t0 + d * (24 * 60 * 60 * 1000))) ≠
        hmacSha256Hex SECRET (P ++ ':' :: E) := by
      intro hcontra
      have hpay := hmacSha256Hex_inj hcontra
      obtain ⟨h1, h2⟩ := payload_inj (natStr_colonFree id) hPfree hpay
      exact hPE (by rw [← h1, ← h2])
    rw [verifySignedUrl_parts _ _ _ _ _ hPfree hEfree
        (hmacSha256Hex_colonFree _ _)]
    by_cases hA : jsStrictNe (jsParseIntChars P)
        (jsParseIntChars (natStr id)) = true
    · rw [if_pos hA]
    · rw [if_neg hA]
      by_cases hB : jsGtOpt t5 (jsParseIntChars E) = true
      · rw [if_pos hB]
      · rw [if_neg hB, if_pos hmne]

/-- Witness for the amended round-trip theorem at id 5, 7-day expiry,
minted at time 0, verified at time 3. -/
theorem token_roundtrip_witness :
    verifySignedUrl (generateSignedUrl (natStr 5) 7 0) (natStr 5) 3 = true :=
  (token_roundtrip 5 7 0 3 (by decide) (by decide)).1

/-!
## Claims about the mock queue and the resend route
-/

/-- C8: `MockQueue.add` is a total function that always resolves with the
job identifier; with no registered processor the job is accepted and
returned unprocessed (`result := none` — and the queue has no job store or
retry state at all, so nothing is persisted or retried); with a registered
processor the handler runs synchronously inline and its result is returned
as job metadata. -/
theorem mockQueue_add_spec {δ ε ρ : Type} (q : MockQueueState δ ε ρ)
    (jobName : JStr) (data : δ) (nowId : JStr) :
    (q.processor = none →
      MockQueue.add q jobName data nowId = .ok ⟨nowId, data, none⟩)
    ∧ (∀ p r, q.processor = some p → p ⟨nowId, data⟩ = .ok r →
        MockQueue.add q jobName data nowId = .ok ⟨nowId, data, some r⟩) := by
  constructor
  · intro h
    simp [MockQueue.add, h]
  · intro p r hp hr
    simp [MockQueue.add, hp, hr]

/-- Witness for the mock-queue contract with no registered processor. -/
theorem mockQueue_add_spec_witness :
    MockQueue.add
      (⟨jstr "invoice-notifications", none⟩ : MockQueueState Nat Unit Nat)
      (jstr "send-invoice") 7 (jstr "42") = .ok ⟨jstr "42", 7, none⟩ :=
  (mockQueue_add_spec _ _ _ _).1 rfl

theorem pickLatest_mem (rows : List SendLogRow) (r : SendLogRow)
    (h : pickLatest rows = some r) : r ∈ rows := by
  induction rows with
  | nil => simp [pickLatest] at h
  | cons x xs ih =>
    unfold pickLatest at h
    cases he : pickLatest xs with
    | none =>
      rw [he] at h
      simp at h
      simp [h]
    | some b =>
      rw [he] at h
      have h2 : (if x.created_at ≥ b.created_at then some x else some b) =
          some r := h
      by_cases hge : x.created_at ≥ b.created_at
      · rw [if_pos hge] at h2
        simp at h2
        simp [h2]
      · rw [if_neg hge] at h2
        simp at h2
        subst h2
        simp [ih he]

theorem pickLatest_isSome (rows : List SendLogRow) (h : rows ≠ []) :
    ∃ r, pickLatest rows = some r := by
  cases rows with
  | nil => exact absurd rfl h
  | cons x xs =>
    unfold pickLatest
    cases he : pickLatest xs with
    | none => exact ⟨x, rfl⟩
    | some b =>
      by_cases hge : x.created_at ≥ b.created_at
      · exact ⟨x, by
          show (if x.created_at ≥ b.created_at then some x else some b) = some x
          rw [if_pos hge]⟩
      · exact ⟨b, by
          show (if x.created_at ≥ b.created_at then some x else some b) = some b
          rw [if_neg hge]⟩

/-- C7: if the invoice has an email send-log row with status `sent` or
`delivered` created within the last hour, a second invocation of the
manual resend route short-circuits: it answers 200 reporting a prior
send-log row satisfying the same recency predicate, and it enqueues no
job (and hence causes no new send-log row — only worker jobs insert
send-log rows). -/
theorem resend_idempotent (logs : List SendLogRow) (invoice : Option InvoiceData)
    (invoiceId : Nat) (now : Int) (jobId : JStr)
    (h : ∃ row ∈ logs, recentEmailPred invoiceId now row = true) :
    ∃ r, recentEmailPred invoiceId now r = true ∧ r ∈ logs ∧
      postInvoiceSend logs invoice invoiceId now jobId = (.alreadySent r, false) := by
  obtain ⟨row, hmem, hpred⟩ := h
  have hfmem : row ∈ logs.filter (recentEmailPred invoiceId now) :=
    List.mem_filter.mpr ⟨hmem, hpred⟩
  have hfne : logs.filter (recentEmailPred invoiceId now) ≠ [] :=
    List.ne_nil_of_mem hfmem
  obtain ⟨r, hr⟩ := pickLatest_isSome _ hfne
  have hrmem := pickLatest_mem _ _ hr
  have hrfilter := List.mem_filter.mp hrmem
  refine ⟨r, hrfilter.2, hrfilter.1, ?_⟩
  unfold postInvoiceSend recentEmailSend
  rw [hr]

/-- Witness for the resend idempotency: one recent sent email row. -/
theorem resend_idempotent_witness :
    ∃ r, recentEmailPred 1 200 r = true ∧
      r ∈ [(⟨1, 1, Channel.email, jstr "sent", 100⟩ : SendLogRow)] ∧
      postInvoiceSend [(⟨1, 1, Channel.email, jstr "sent", 100⟩ : SendLogRow)]
        none 1 200 (jstr "j") = (.alreadySent r, false) :=
  resend_idempotent _ none 1 200 (jstr "j")
    ⟨⟨1, 1, Channel.email, jstr "sent", 100⟩, by simp, by decide⟩

/-!
## Claims about the delivery worker
-/

/-- C6: a job for a customer who has unsubscribed from email returns the
skipped outcome immediately with an empty effect trace: no send-log
insert, no artifact record, no progress report, and no update to the
invoice's `send_status`, `email_sent` or `sms_sent` fields. -/
theorem unsubscribed_job_is_noop (settings : Settings) (p : Prefs) (env : Env)
    (invoiceId : Nat) (invoiceData : InvoiceData) (tb : JStr) (tt : Option JStr)
    (h : p.email_unsubscribed = true) :
    processSendInvoice settings (some p) env invoiceId invoiceData tb tt =
      ([], .ok (.skipped (jstr "unsubscribed"))) := by
  unfold processSendInvoice processSendInvoiceInner prefUnsubscribed
  simp [h]

/-- Witness for the unsubscribed-customer skip. -/
theorem unsubscribed_job_is_noop_witness :
    processSendInvoice
      ⟨true, false, jstr "sendgrid", jstr "twilio", some 7, true⟩
      (some ⟨true, false, none⟩)
      ⟨true, .error (), .error ⟨none, none⟩, .error ⟨none⟩, 1, 2, 0⟩
      1 ⟨jstr "INV-1001", jstr "Jane", some (jstr "a@b.c"), none⟩
      (jstr "system") none = ([], .ok (.skipped (jstr "unsubscribed"))) :=
  unsubscribed_job_is_noop _ _ _ _ _ _ _ rfl

/-- C3: when the email dispatch call throws, the worker updates the email
send-log row (by its insert id) to `failed` with the thrown error message
and code, rethrows the error (so the job fails), and the outer catch sets
the invoice's aggregate `send_status` to `failed`; none of the
success-path updates (send-log `sent`, `email_sent` flag, `send_status`
`sent`) occur. -/
theorem email_failure_fails_job (settings : Settings) (prefs : Option Prefs)
    (env : Env) (invoiceId : Nat) (invoiceData : InvoiceData) (tb : JStr)
    (tt : Option JStr) (e : EmailErr)
    (hunsub : prefUnsubscribed prefs = false)
    (henabled : settings.email_enabled = true)
    (hemail : jsTruthyStr invoiceData.customerEmail = true)
    (herr : env.emailResult = .error e) :
    (processSendInvoice settings prefs env invoiceId invoiceData tb tt).2 =
      .error (.emailError e)
    ∧ Ev.updateSendLogFailed .email env.emailLogId e.error e.errorCode ∈
        (processSendInvoice settings prefs env invoiceId invoiceData tb tt).1
    ∧ Ev.setSendStatus invoiceId (jstr "failed") ∈
        (processSendInvoice settings prefs env invoiceId invoiceData tb tt).1
    ∧ (∀ lid mid, Ev.updateSendLogSent .email lid mid ∉
        (processSendInvoice settings prefs env invoiceId invoiceData tb tt).1)
    ∧ (∀ iid, Ev.setEmailSent iid ∉
        (processSendInvoice settings prefs env invoiceId invoiceData tb tt).1)
    ∧ Ev.setSendStatus invoiceId (jstr "sent") ∉
        (processSendInvoice settings prefs env invoiceId invoiceData tb tt).1 := by
  have hsf : jstr "sent" ≠ jstr "failed" := by decide
  unfold processSendInvoice processSendInvoiceInner
  by_cases hg : env.pdfGenOk = true
  · cases hsv : env.saveResult with
    | ok fi =>
      simp only [hunsub, henabled, hemail, herr, hg, hsv, pdfStage,
        Bool.false_eq_true, if_false, if_true, Bool.and_self]
      refine ⟨by trivial, by simp, by simp, ?_, ?_, ?_⟩
      · intro lid mid; simp
      · intro iid; simp
      · simp [hsf]
    | error u =>
      simp only [hunsub, henabled, hemail, herr, hg, hsv, pdfStage,
        Bool.false_eq_true, if_false, if_true, Bool.and_self]
      refine ⟨by trivial, by simp, by simp, ?_, ?_, ?_⟩
      · intro lid mid; simp
      · intro iid; simp
      · simp [hsf]
  · simp only [hunsub, henabled, hemail, herr, hg, pdfStage,
      Bool.false_eq_true, if_false, if_true, Bool.and_self]
    refine ⟨by trivial, by simp, by simp, ?_, ?_, ?_⟩
    · intro lid mid; simp
    · intro iid; simp
    · simp [hsf]

/-- Witness for the email-failure path (PDF stage also failing). -/
theorem email_failure_fails_job_witness :
    (processSendInvoice
        ⟨true, false, jstr "sendgrid", jstr "twilio", some 7, true⟩
        none
        ⟨false, .error (), .error ⟨some (jstr "boom"), some (jstr "E1")⟩,
          .error ⟨none⟩, 1, 2, 0⟩
        1 ⟨jstr "INV-1001", jstr "Jane", some (jstr "a@b.c"), none⟩
        (jstr "system") none).2 =
      .error (.emailError ⟨some (jstr "boom"), some (jstr "E1")⟩)
    ∧ Ev.updateSendLogFailed .email 1 (some (jstr "boom"))
        (some (jstr "E1")) ∈
      (processSendInvoice
        ⟨true, false, jstr "sendgrid", jstr "twilio", some 7, true⟩
        none
        ⟨false, .error (), .error ⟨some (jstr "boom"), some (jstr "E1")⟩,
          .error ⟨none⟩, 1, 2, 0⟩
        1 ⟨jstr "INV-1001", jstr "Jane", some (jstr "a@b.c"), none⟩
        (jstr "system") none).1 :=
  have h := email_failure_fails_job
    ⟨true, false, jstr "sendgrid", jstr "twilio", some 7, true⟩
    none
    ⟨false, .error (), .error ⟨some (jstr "boom"), some (jstr "E1")⟩,
      .error ⟨none⟩, 1, 2, 0⟩
    1 ⟨jstr "INV-1001", jstr "Jane", some (jstr "a@b.c"), none⟩
    (jstr "system") none ⟨some (jstr "boom"), some (jstr "E1")⟩
    rfl rfl rfl rfl
  ⟨h.1, h.2.1⟩

/-- C4: when PDF generation or artifact storage throws, the worker does not
abort: it reaches the email dispatch with `pdfBuffer`, `pdfFileName` and
`invoiceUrl` all null (no attachment, no invoice link), and the job still
ends with the invoice's `send_status` written as `sent` or `failed`. -/
theorem pdf_failure_degrades_gracefully (settings : Settings)
    (prefs : Option Prefs) (env : Env) (invoiceId : Nat)
    (invoiceData : InvoiceData) (tb : JStr) (tt : Option JStr)
    (hunsub : prefUnsubscribed prefs = false)
    (hpdf : env.pdfGenOk = false ∨ env.saveResult = .error ())
    (henabled : settings.email_enabled = true)
    (hemail : jsTruthyStr invoiceData.customerEmail = true) :
    Ev.emailDispatchCall false none none ∈
      (processSendInvoice settings prefs env invoiceId invoiceData tb tt).1
    ∧ (Ev.setSendStatus invoiceId (jstr "sent") ∈
        (processSendInvoice settings prefs env invoiceId invoiceData tb tt).1
      ∨ Ev.setSendStatus invoiceId (jstr "failed") ∈
        (processSendInvoice settings prefs env invoiceId invoiceData tb tt).1) := by
  unfold processSendInvoice processSendInvoiceInner
  rcases hpdf with hg | hsv
  · cases her : env.emailResult with
    | ok r =>
      simp only [hunsub, henabled, hemail, her, hg, pdfStage,
        Bool.false_eq_true, if_false, if_true, Bool.and_self]
      exact ⟨by simp, Or.inl (by simp)⟩
    | error e =>
      simp only [hunsub, henabled, hemail, her, hg, pdfStage,
        Bool.false_eq_true, if_false, if_true, Bool.and_self]
      exact ⟨by simp, Or.inr (by simp)⟩
  · by_cases hg : env.pdfGenOk = true
    · cases her : env.emailResult with
      | ok r =>
        simp only [hunsub, henabled, hemail, her, hg, hsv, pdfStage,
          Bool.false_eq_true, if_false, if_true, Bool.and_self]
        exact ⟨by simp, Or.inl (by simp)⟩
      | error e =>
        simp only [hunsub, henabled, hemail, her, hg, hsv, pdfStage,
          Bool.false_eq_true, if_false, if_true, Bool.and_self]
        exact ⟨by simp, Or.inr (by simp)⟩
    · cases her : env.emailResult with
      | ok r =>
        simp only [hunsub, henabled, hemail, her, hg, pdfStage,
          Bool.false_eq_true, if_false, if_true, Bool.and_self]
        exact ⟨by simp, Or.inl (by simp)⟩
      | error e =>
        simp only [hunsub, henabled, hemail, her, hg, pdfStage,
          Bool.false_eq_true, if_false, if_true, Bool.and_self]
        exact ⟨by simp, Or.inr (by simp)⟩

/-- Witness for the degraded PDF path with a successful email. -/
theorem pdf_failure_degrades_gracefully_witness :
    Ev.emailDispatchCall false none none ∈
      (processSendInvoice
        ⟨true, false, jstr "sendgrid", jstr "twilio", some 7, true⟩
        none
        ⟨false, .error (), .ok ⟨jstr "m1", jstr "resp"⟩, .error ⟨none⟩, 1, 2, 0⟩
        1 ⟨jstr "INV-1001", jstr "Jane", some (jstr "a@b.c"), none⟩
        (jstr "system") none).1
    ∧ (Ev.setSendStatus 1 (jstr "sent") ∈
        (processSendInvoice
          ⟨true, false, jstr "sendgrid", jstr "twilio", some 7, true⟩
          none
          ⟨false, .error (), .ok ⟨jstr "m1", jstr "resp"⟩, .error ⟨none⟩, 1, 2, 0⟩
          1 ⟨jstr "INV-1001", jstr "Jane", some (jstr "a@b.c"), none⟩
          (jstr "system") none).1
      ∨ Ev.setSendStatus 1 (jstr "failed") ∈
        (processSendInvoice
          ⟨true, false, jstr "sendgrid", jstr "twilio", some 7, true⟩
          none
          ⟨false, .error (), .ok ⟨jstr "m1", jstr "resp"⟩, .error ⟨none⟩, 1, 2, 0⟩
          1 ⟨jstr "INV-1001", jstr "Jane", some (jstr "a@b.c"), none⟩
          (jstr "system") none).1) :=
  pdf_failure_degrades_gracefully
    ⟨true, false, jstr "sendgrid", jstr "twilio", some 7, true⟩
    none
    ⟨false, .error (), .ok ⟨jstr "m1", jstr "resp"⟩, .error ⟨none⟩, 1, 2, 0⟩
    1 ⟨jstr "INV-1001", jstr "Jane", some (jstr "a@b.c"), none⟩
    (jstr "system") none rfl (Or.inl rfl) rfl rfl

/-- C5: when email dispatch succeeds (or is not attempted) and SMS dispatch
throws, the worker updates the SMS send-log row to `failed` with the error
message, does not rethrow (the job result is still success), and the
aggregate `send_status` is written as `sent` and never as `failed`. -/
theorem sms_failure_does_not_fail_job (settings : Settings)
    (prefs : Option Prefs) (env : Env) (invoiceId : Nat)
    (invoiceData : InvoiceData) (tb : JStr) (tt : Option JStr) (e : SmsErr)
    (hunsub : prefUnsubscribed prefs = false)
    (hemailok : (settings.email_enabled &&
        jsTruthyStr invoiceData.customerEmail) = false
      ∨ ∃ r, env.emailResult = .ok r)
    (hsms : (settings.sms_enabled && jsTruthyStr invoiceData.customerPhone
        && prefSmsOptIn prefs) = true)
    (herr : env.smsResult = .error e) :
    Ev.updateSendLogFailed .sms env.smsLogId e.error none ∈
      (processSendInvoice settings prefs env invoiceId invoiceData tb tt).1
    ∧ (∃ fn, (processSendInvoice settings prefs env invoiceId invoiceData
        tb tt).2 = .ok (.success invoiceId fn))
    ∧ Ev.setSendStatus invoiceId (jstr "sent") ∈
        (processSendInvoice settings prefs env invoiceId invoiceData tb tt).1
    ∧ Ev.setSendStatus invoiceId (jstr "failed") ∉
        (processSendInvoice settings prefs env invoiceId invoiceData tb tt).1 := by
  have hfs : jstr "failed" ≠ jstr "sent" := by decide
  unfold processSendInvoice processSendInvoiceInner
  have hpdfsplit : env.pdfGenOk = false
      ∨ (env.pdfGenOk = true ∧ env.saveResult = .error ())
      ∨ (env.pdfGenOk = true ∧ ∃ fi, env.saveResult = .ok fi) := by
    by_cases hg : env.pdfGenOk = true
    · cases hsv : env.saveResult with
      | ok fi => exact Or.inr (Or.inr ⟨hg, fi, rfl⟩)
      | error u => cases u; exact Or.inr (Or.inl ⟨hg, rfl⟩)
    · exact Or.inl (by revert hg; cases env.pdfGenOk <;> simp)
  have hatt : (settings.email_enabled &&
      jsTruthyStr invoiceData.customerEmail) = false
      ∨ ∃ r, (settings.email_enabled &&
          jsTruthyStr invoiceData.customerEmail) = true
          ∧ env.emailResult = .ok r := by
    rcases hemailok with h | ⟨r, hr⟩
    · exact Or.inl h
    · by_cases hb : (settings.email_enabled &&
          jsTruthyStr invoiceData.customerEmail) = true
      · exact Or.inr ⟨r, hb, hr⟩
      · exact Or.inl (by revert hb; cases (settings.email_enabled &&
          jsTruthyStr invoiceData.customerEmail) <;> simp)
  rcases hpdfsplit with hg | ⟨hg, hsv⟩ | ⟨hg, fi, hsv⟩
  · rcases hatt with hb | ⟨r, hb, hr⟩
    · simp only [hunsub, hsms, herr, hg, hb, pdfStage, smsStageEvents,
        Bool.false_eq_true, if_false, if_true, Bool.and_self]
      exact ⟨by simp, ⟨_, by trivial⟩, by simp, by simp [hfs]⟩
    · simp only [hunsub, hsms, herr, hg, hb, hr, pdfStage, smsStageEvents,
        Bool.false_eq_true, if_false, if_true, Bool.and_self]
      exact ⟨by simp, ⟨_, by trivial⟩, by simp, by simp [hfs]⟩
  · rcases hatt with hb | ⟨r, hb, hr⟩
    · simp only [hunsub, hsms, herr, hg, hsv, hb, pdfStage, smsStageEvents,
        Bool.false_eq_true, if_false, if_true, Bool.and_self]
      exact ⟨by simp, ⟨_, by trivial⟩, by simp, by simp [hfs]⟩
    · simp only [hunsub, hsms, herr, hg, hsv, hb, hr, pdfStage, smsStageEvents,
        Bool.false_eq_true, if_false, if_true, Bool.and_self]
      exact ⟨by simp, ⟨_, by trivial⟩, by simp, by simp [hfs]⟩
  · rcases hatt with hb | ⟨r, hb, hr⟩
    · simp only [hunsub, hsms, herr, hg, hsv, hb, pdfStage, smsStageEvents,
        Bool.false_eq_true, if_false, if_true, Bool.and_self]
      exact ⟨by simp, ⟨_, by trivial⟩, by simp, by simp [hfs]⟩
    · simp only [hunsub, hsms, herr, hg, hsv, hb, hr, pdfStage, smsStageEvents,
        Bool.false_eq_true, if_false, if_true, Bool.and_self]
      exact ⟨by simp, ⟨_, by trivial⟩, by simp, by simp [hfs]⟩

/-- Witness for the SMS-failure path: email disabled, SMS enabled with
opt-in, SMS dispatch throwing a validation error. -/
theorem sms_failure_does_not_fail_job_witness :
    Ev.updateSendLogFailed .sms 2 (some (jstr "Invalid phone number")) none ∈
      (processSendInvoice
        ⟨false, true, jstr "sendgrid", jstr "twilio", some 7, true⟩
        (some ⟨false, true, none⟩)
        ⟨false, .error (), .error ⟨none, none⟩,
          .error ⟨some (jstr "Invalid phone number")⟩, 1, 2, 0⟩
        1 ⟨jstr "INV-1001", jstr "Jane", some (jstr "a@b.c"),
          some (jstr "555")⟩
        (jstr "system") none).1
    ∧ Ev.setSendStatus 1 (jstr "failed") ∉
      (processSendInvoice
        ⟨false, true, jstr "sendgrid", jstr "twilio", some 7, true⟩
        (some ⟨false, true, none⟩)
        ⟨false, .error (), .error ⟨none, none⟩,
          .error ⟨some (jstr "Invalid phone number")⟩, 1, 2, 0⟩
        1 ⟨jstr "INV-1001", jstr "Jane", some (jstr "a@b.c"),
          some (jstr "555")⟩
        (jstr "system") none).1 :=
  have h := sms_failure_does_not_fail_job
    ⟨false, true, jstr "sendgrid", jstr "twilio", some 7, true⟩
    (some ⟨false, true, none⟩)
    ⟨false, .error (), .error ⟨none, none⟩,
      .error ⟨some (jstr "Invalid phone number")⟩, 1, 2, 0⟩
    1 ⟨jstr "INV-1001", jstr "Jane", some (jstr "a@b.c"), some (jstr "555")⟩
    (jstr "system") none ⟨some (jstr "Invalid phone number")⟩
    rfl (Or.inl rfl) (by decide) rfl
  ⟨h.1, h.2.2.2⟩

/-- Projection of `job.progress` events from a trace. -/
def progressOf : Ev → Option Nat
  | .progress n => some n
  | _ => none

/-- The role an event plays for one channel's send-log lifecycle. -/
inductive Role where
  | ins
  | call
  | upd
deriving DecidableEq, Repr

/-- Classify an event with respect to channel `c`: its `sending` insert,
its dispatch call, or its terminal send-log update. -/
def roleOf (c : Channel) : Ev → Option Role
  | .insertSendLog _ ch _ _ _ _ => if ch = c then some .ins else none
  | .emailDispatchCall _ _ _ => if c = Channel.email then some .call else none
  | .smsDispatchCall _ => if c = Channel.sms then some .call else none
  | .updateSendLogSent ch _ _ => if ch = c then some .upd else none
  | .updateSendLogFailed ch _ _ _ => if ch = c then some .upd else none
  | _ => none

/-- C9: for every job and every channel, the channel's send-log lifecycle
events in the trace are either absent entirely or exactly the sequence
insert-`sending`, dispatch call, terminal update — so the `sending` row is
always written before the dispatch call, the terminal update comes only
after the dispatch call, and no dispatch happens without its `sending` row. -/
theorem send_log_channel_ordering (settings : Settings) (prefs : Option Prefs)
    (env : Env) (invoiceId : Nat) (invoiceData : InvoiceData) (tb : JStr)
    (tt : Option JStr) (c : Channel) :
    (processSendInvoice settings prefs env invoiceId invoiceData
        tb tt).1.filterMap (roleOf c) = []
    ∨ (processSendInvoice settings prefs env invoiceId invoiceData
        tb tt).1.filterMap (roleOf c) = [Role.ins, Role.call, Role.upd] := by
  unfold processSendInvoice processSendInvoiceInner
  by_cases hu : prefUnsubscribed prefs = true
  · cases c <;> simp [hu, roleOf]
  · by_cases hg : env.pdfGenOk = true <;>
      cases hsv : env.saveResult <;>
      by_cases hb : (settings.email_enabled &&
        jsTruthyStr invoiceData.customerEmail) = true <;>
      cases her : env.emailResult <;>
      by_cases hs : (settings.sms_enabled &&
        jsTruthyStr invoiceData.customerPhone && prefSmsOptIn prefs) = true <;>
      cases hsr : env.smsResult <;>
      cases c <;>
      simp [hu, hg, hsv, hb, her, hs, hsr, pdfStage, smsStageEvents, roleOf]

/-- The SMS stage never reports progress. -/
theorem smsStageEvents_no_progress (settings : Settings) (prefs : Option Prefs)
    (env : Env) (invoiceId : Nat) (invoiceData : InvoiceData)
    (invoiceUrl : Option JStr) (tb : JStr) (tt : Option JStr) :
    (smsStageEvents settings prefs env invoiceId invoiceData invoiceUrl
      tb tt).filterMap progressOf = [] := by
  unfold smsStageEvents
  by_cases hs : (settings.sms_enabled && jsTruthyStr invoiceData.customerPhone
      && prefSmsOptIn prefs) = true
  · cases hsr : env.smsResult <;> simp [hs, hsr, progressOf]
  · simp [hs]

/-- C10 counterexample: a processed job in which PDF generation throws (and
no channel is enabled) runs to completion with `send_status = sent` but
reports only the progress values 10, 40, 70, 100 — the 25 report is
skipped, so the claimed sequence 10/25/40/70/100 is not reported by every
processed job. -/
theorem progress_25_skipped_on_pdf_failure :
    (processSendInvoice
        ⟨false, false, jstr "sendgrid", jstr "twilio", some 7, true⟩
        none
        ⟨false, .error (), .error ⟨none, none⟩, .error ⟨none⟩, 1, 2, 0⟩
        1 ⟨jstr "INV-1001", jstr "Jane", some (jstr "a@b.c"), none⟩
        (jstr "system") none).1.filterMap progressOf = [10, 40, 70, 100]
    ∧ (processSendInvoice
        ⟨false, false, jstr "sendgrid", jstr "twilio", some 7, true⟩
        none
        ⟨false, .error (), .error ⟨none, none⟩, .error ⟨none⟩, 1, 2, 0⟩
        1 ⟨jstr "INV-1001", jstr "Jane", some (jstr "a@b.c"), none⟩
        (jstr "system") none).2 = .ok (.success 1 none) :=
  ⟨by decide, rfl⟩

/-- C10 (amended): for every processed job that is not skipped for
unsubscribe, in which the PDF generation call succeeds and email dispatch
does not throw (or is not attempted), the worker reports exactly the
progress values 10, 25, 40, 70, 100, each once and in that order.  (When
PDF generation throws, the 25 report is skipped; when email dispatch
throws, the job aborts after the 40 report.) -/
theorem progress_sequence (settings : Settings) (prefs : Option Prefs)
    (env : Env) (invoiceId : Nat) (invoiceData : InvoiceData) (tb : JStr)
    (tt : Option JStr)
    (hunsub : prefUnsubscribed prefs = false)
    (hg : env.pdfGenOk = true)
    (hemailok : (settings.email_enabled &&
        jsTruthyStr invoiceData.customerEmail) = true →
      ∃ r, env.emailResult = .ok r) :
    (processSendInvoice settings prefs env invoiceId invoiceData
      tb tt).1.filterMap progressOf = [10, 25, 40, 70, 100] := by
  unfold processSendInvoice processSendInvoiceInner
  cases hsv : env.saveResult with
  | ok fi =>
    by_cases hb : (settings.email_enabled &&
        jsTruthyStr invoiceData.customerEmail) = true
    · obtain ⟨r, hr⟩ := hemailok hb
      simp [hunsub, hg, hsv, hb, hr, pdfStage, smsStageEvents_no_progress,
        progressOf]
    · simp [hunsub, hg, hsv, hb, pdfStage, smsStageEvents_no_progress,
        progressOf]
  | error u =>
    by_cases hb : (settings.email_enabled &&
        jsTruthyStr invoiceData.customerEmail) = true
    · obtain ⟨r, hr⟩ := hemailok hb
      simp [hunsub, hg, hsv, hb, hr, pdfStage, smsStageEvents_no_progress,
        progressOf]
    · simp [hunsub, hg, hsv, hb, pdfStage, smsStageEvents_no_progress,
        progressOf]

/-- Witness for the amended progress sequence: PDF generation succeeds,
no channel enabled. -/
theorem progress_sequence_witness :
    (processSendInvoice
        ⟨false, false, jstr "sendgrid", jstr "twilio", some 7, true⟩
        none
        ⟨true, .ok ⟨jstr "invoice-INV-1001.pdf", jstr "/data/pdfs", 10,
          jstr "h", jstr "local"⟩, .error ⟨none, none⟩, .error ⟨none⟩, 1, 2, 0⟩
        1 ⟨jstr "INV-1001", jstr "Jane", some (jstr "a@b.c"), none⟩
        (jstr "system") none).1.filterMap progressOf = [10, 25, 40, 70, 100] :=
  progress_sequence
    ⟨false, false, jstr "sendgrid", jstr "twilio", some 7, true⟩
    none
    ⟨true, .ok ⟨jstr "invoice-INV-1001.pdf", jstr "/data/pdfs", 10,
      jstr "h", jstr "local"⟩, .error ⟨none, none⟩, .error ⟨none⟩, 1, 2, 0⟩
    1 ⟨jstr "INV-1001", jstr "Jane", some (jstr "a@b.c"), none⟩
    (jstr "system") none rfl rfl (fun h => absurd h (by decide))
